import Mathlib

/-!
Shallow embedding of the price-analysis core of `src/PriceAnalyzer.py`
(class `PriceAnalyzer`), over exact rational arithmetic.

Modelling conventions:
* Python `dict`s keep insertion order, so a feature mapping is embedded as an
  ordered association list `List (String × Nat)`.
* The TensorFlow network is an arbitrary function `Vec5 → ℚ` held in the
  state; training/fine-tuning steps that call `keras.Model.fit` are
  parameterised by an arbitrary `fit` function, since the numerical content of
  gradient descent is outside the scope of the properties below.
* Calls to `random.uniform`/`random.choice`/`random.randint` are embedded as
  explicit parameters; theorems assume exactly the bounds the corresponding
  `random.uniform(lo, hi)` call guarantees.
* Fallible operations return `Except PError`; each `PError` constructor names
  the Python exception raised on that path.
-/

namespace PriceAnalyzer

/-- Ordered label → integer-code table (a Python dict, insertion-ordered). -/
abbrev Mapping := List (String × Nat)

/-- Errors the embedded operations can raise, named after the Python
exceptions raised on the corresponding code path. -/
inductive PError where
  /-- `IndexError` from `list(mapping.keys())[0]` on an empty mapping
      (PriceAnalyzer.py lines 188-194). -/
  | indexError
  /-- sklearn `NotFittedError` from `scaler.transform` before any fit. -/
  | notFitted
  /-- `AttributeError` from `self.model.predict` when `self.model is None`. -/
  | attributeError
  /-- `ValueError("No model exists. ...")` raised by `fine_tune`
      (lines 730-732) and `ValueError("Location mapping not available. ...")`
      raised by `analyze_regional_pricing` (lines 813-815). -/
  | invalidState
  /-- `ZeroDivisionError` from dividing by a zero predicted fair price
      (line 636-637). -/
  | zeroDivision
  deriving DecidableEq, Repr

/-- `pandas.Series.unique`: distinct values in order of first appearance. -/
def uniqueInOrder (xs : List String) : List String :=
  xs.foldl (fun acc x => if x ∈ acc then acc else acc ++ [x]) []

/-- `{lab: idx for idx, lab in enumerate(labels)}` (lines 126-128). -/
def buildMapping (labels : List String) : Mapping :=
  labels.enum.map (fun p => (p.2, p.1))

/-- The 5-dimensional feature vector
`[category_code, location_code, area_sqm, complexity_score, material_quality_score]`
(lines 163-169, 197-203). -/
structure Vec5 where
  x1 : ℚ
  x2 : ℚ
  x3 : ℚ
  x4 : ℚ
  x5 : ℚ

/-- sklearn `StandardScaler` parameters: per-feature mean and scale. -/
structure Scaler where
  mean : Vec5
  scale : Vec5

/-- `StandardScaler.transform`: per-feature `(x - mean) / scale`. -/
def Scaler.transform (sc : Scaler) (x : Vec5) : Vec5 :=
  ⟨(x.x1 - sc.mean.x1) / sc.scale.x1,
   (x.x2 - sc.mean.x2) / sc.scale.x2,
   (x.x3 - sc.mean.x3) / sc.scale.x3,
   (x.x4 - sc.mean.x4) / sc.scale.x4,
   (x.x5 - sc.mean.x5) / sc.scale.x5⟩

/-- The mutable state of a `PriceAnalyzer` instance (lines 25-28): the keras
model (`None` when absent), the scaler (`none` models an unfitted scaler, for
which `transform` raises `NotFittedError`), and the two feature mappings. -/
structure PState where
  model : Option (Vec5 → ℚ)
  scaler : Option Scaler
  category_mapping : Mapping
  location_mapping : Mapping

/-- Label resolution in `predict_fair_price` (lines 187-194): a label not in
the mapping is replaced by the first mapped label, `list(mapping.keys())[0]`,
which raises `IndexError` when the mapping is empty. -/
def resolveLabel (m : Mapping) (label : String) : Except PError String :=
  if (List.lookup label m).isSome then .ok label
  else
    match m with
    | [] => .error .indexError
    | (k, _) :: _ => .ok k

/-- `predict_fair_price` (lines 173-211): resolve labels, build the feature
vector, scale it, run the network, and clamp at zero with `max(0, prediction)`.
The `getD 0` defaults are unreachable: `resolveLabel` only returns mapped
labels. -/
def predictFairPrice (st : PState) (category location : String)
    (area_sqm complexity_score material_quality_score : ℚ) : Except PError ℚ :=
  match resolveLabel st.category_mapping category with
  | .error e => .error e
  | .ok cat =>
    match resolveLabel st.location_mapping location with
    | .error e => .error e
    | .ok loc =>
      let ccode : ℚ := ((List.lookup cat st.category_mapping).getD 0 : ℕ)
      let lcode : ℚ := ((List.lookup loc st.location_mapping).getD 0 : ℕ)
      let x : Vec5 :=
        ⟨ccode, lcode, area_sqm, complexity_score, material_quality_score⟩
      match st.scaler with
      | none => .error .notFitted
      | some sc =>
        match st.model with
        | none => .error .attributeError
        | some net => .ok (max 0 (net (sc.transform x)))

/-- `base_rates` dict of `get_market_rates` (lines 225-238); the same table is
repeated verbatim inside `generate_training_data` (lines 352-365).  Embedded as
a total function whose final branch is the `dict.get(category, 4000)` default
of line 281; `generate_training_data` indexes it only at listed categories. -/
def base_rates (c : String) : ℚ :=
  if c = "Masonry" then 3200
  else if c = "Carpentry" then 3800
  else if c = "Plumbing" then 4200
  else if c = "Electrical" then 4500
  else if c = "Painting" then 3000
  else if c = "Tiling" then 3400
  else if c = "Roofing" then 4200
  else if c = "Foundation Work" then 5500
  else if c = "Interior Design" then 7500
  else if c = "Landscaping" then 3600
  else if c = "HVAC" then 6000
  else if c = "General Contracting" then 5000
  else 4000

/-- `location_factors` dict (lines 241-262, repeated at lines 368-389); final
branch is the `dict.get(location, 1.0)` default of line 282. -/
def location_factors (l : String) : ℚ :=
  if l = "Colombo" then 1.35
  else if l = "Gampaha" then 1.25
  else if l = "Kandy" then 1.20
  else if l = "Galle" then 1.15
  else if l = "Negombo" then 1.20
  else if l = "Jaffna" then 1.10
  else if l = "Anuradhapura" then 0.95
  else if l = "Batticaloa" then 0.90
  else if l = "Trincomalee" then 0.92
  else if l = "Matara" then 1.05
  else if l = "Kurunegala" then 0.98
  else if l = "Ratnapura" then 0.95
  else if l = "Badulla" then 0.92
  else if l = "Nuwara Eliya" then 1.10
  else if l = "Hambantota" then 1.05
  else if l = "Kalmunai" then 0.88
  else if l = "Vavuniya" then 0.90
  else if l = "Matale" then 0.95
  else if l = "Puttalam" then 0.90
  else if l = "Kegalle" then 0.92
  else 1.0

/-- `material_percentage` dict (lines 265-278); final branch is the
`dict.get(category, 0.60)` default of line 283. -/
def material_percentage (c : String) : ℚ :=
  if c = "Masonry" then 0.65
  else if c = "Carpentry" then 0.60
  else if c = "Plumbing" then 0.55
  else if c = "Electrical" then 0.60
  else if c = "Painting" then 0.50
  else if c = "Tiling" then 0.70
  else if c = "Roofing" then 0.75
  else if c = "Foundation Work" then 0.70
  else if c = "Interior Design" then 0.50
  else if c = "Landscaping" then 0.55
  else if c = "HVAC" then 0.65
  else if c = "General Contracting" then 0.60
  else 0.60

/-- Lines 286-291 of `get_market_rates`: the adjusted rate after the ±5%
material-cost variation drawn by `random.uniform(0.95, 1.05)` (here the
parameter `mv`). -/
def materialAdjustedRate (category location : String) (mv : ℚ) : ℚ :=
  base_rates category * location_factors location
    * (1 + (mv - 1) * material_percentage category)

/-- The market-rate snapshot dictionary built at lines 305-321 (the fields the
claims touch; `last_updated`/`currency`/`unit` are constant strings). -/
structure MarketInfo where
  category : String
  location : String
  base_rate : ℚ
  location_factor : ℚ
  material_cost_percentage : ℚ
  adjusted_rate : ℚ
  min_market_rate : ℚ
  max_market_rate : ℚ
  avg_market_rate : ℚ
  sample_size : ℕ
  material_cost_trend : String

/-- `get_market_rates` (lines 213-323).  Random draws are parameters:
`mv` is `random.uniform(0.95, 1.05)` (line 289), `avgRate` is
`random.uniform(mar * 0.98, mar * 1.02)` (lines 298-299), `sampleSize` is
`random.randint(25, 150)` and `trend` is `random.choice([...])`. -/
def getMarketRates (category location : String) (mv avgRate : ℚ)
    (sampleSize : ℕ) (trend : String) : MarketInfo :=
  let base_rate := base_rates category
  let factor := location_factors location
  let material_factor := material_percentage category
  let adjusted_rate := base_rate * factor
  let mar := adjusted_rate * (1 + (mv - 1) * material_factor)
  { category := category
    location := location
    base_rate := base_rate
    location_factor := factor
    material_cost_percentage := material_factor * 100
    adjusted_rate := adjusted_rate
    min_market_rate := mar * 0.90
    max_market_rate := mar * 1.10
    avg_market_rate := avgRate
    sample_size := sampleSize
    material_cost_trend := trend }

/-! ## Synthetic training-data generator (`generate_training_data`, lines 325-489) -/

/-- Python 3 `round` to the nearest integer, ties to even (banker's rounding). -/
def roundHalfEven (x : ℚ) : ℤ :=
  let f := Int.floor x
  let r := x - f
  if r < 1/2 then f
  else if 1/2 < r then f + 1
  else if f % 2 = 0 then f else f + 1

/-- Python `round(x, 2)`. -/
def round2 (x : ℚ) : ℚ := (roundHalfEven (x * 100) : ℚ) / 100

/-- Python `round(x, 1)`. -/
def round1 (x : ℚ) : ℚ := (roundHalfEven (x * 10) : ℚ) / 10

/-- `categories` list of `generate_training_data` (lines 337-341). -/
def categoriesList : List String :=
  ["Masonry", "Carpentry", "Plumbing", "Electrical", "Painting",
   "Tiling", "Roofing", "Foundation Work", "Interior Design",
   "Landscaping", "HVAC", "General Contracting"]

/-- `locations` list of `generate_training_data` (lines 344-349). -/
def locationsList : List String :=
  ["Colombo", "Gampaha", "Kandy", "Galle", "Jaffna", "Anuradhapura",
   "Batticaloa", "Trincomalee", "Matara", "Kurunegala", "Ratnapura",
   "Badulla", "Negombo", "Nuwara Eliya", "Hambantota", "Kalmunai",
   "Vavuniya", "Matale", "Puttalam", "Kegalle"]

/-- `area_impact` dict (lines 392-405); the generator indexes it only at the
twelve listed categories, so the `else 0` branch is unreachable there. -/
def area_impact (c : String) : ℚ :=
  if c = "Masonry" then 0.5
  else if c = "Carpentry" then 0.4
  else if c = "Plumbing" then 0.3
  else if c = "Electrical" then 0.25
  else if c = "Painting" then 0.6
  else if c = "Tiling" then 0.7
  else if c = "Roofing" then 0.55
  else if c = "Foundation Work" then 0.45
  else if c = "Interior Design" then 0.3
  else if c = "Landscaping" then 0.5
  else if c = "HVAC" then 0.35
  else if c = "General Contracting" then 0.4
  else 0

/-- `area_ranges` dict (lines 408-421); values are Python int pairs.  The
generator indexes it only at the twelve listed categories, so the `else (0, 0)`
branch is unreachable there. -/
def area_ranges (c : String) : ℤ × ℤ :=
  if c = "Masonry" then (10, 300)
  else if c = "Carpentry" then (5, 150)
  else if c = "Plumbing" then (5, 100)
  else if c = "Electrical" then (10, 200)
  else if c = "Painting" then (20, 400)
  else if c = "Tiling" then (10, 200)
  else if c = "Roofing" then (20, 300)
  else if c = "Foundation Work" then (20, 200)
  else if c = "Interior Design" then (30, 250)
  else if c = "Landscaping" then (50, 1000)
  else if c = "HVAC" then (20, 300)
  else if c = "General Contracting" then (50, 500)
  else (0, 0)

/-- One generated row (lines 473-480); `price` is a Python int after
`max(1, round(price))`. -/
structure Sample where
  category : String
  location : String
  area_sqm : ℚ
  complexity_score : ℚ
  material_quality_score : ℚ
  price : ℤ

/-- The random draws one loop iteration of `generate_training_data` makes
(lines 425-468), in source order.  `areaPow` stands for the real-power
subexpression `area_sqm ** 0.85` of line 451, which has no exact rational
value; the properties below do not depend on it. -/
structure GenDraws where
  /-- `random.choice(categories)` (line 426). -/
  category : String
  /-- `random.choice(locations)` (line 427). -/
  location : String
  /-- `random.uniform(min_area, max_area)` (line 431). -/
  areaU : ℚ
  /-- `random.uniform(-2, 2)` for complexity (line 441). -/
  cJit : ℚ
  /-- `random.uniform(-2, 2)` for material quality (line 443). -/
  mJit : ℚ
  /-- `random.uniform(0.95, 1.05)` seasonal effect (line 461). -/
  seasonal : ℚ
  /-- `random.uniform(0.92, 1.08)` noise (line 468). -/
  noise : ℚ
  /-- the value of `area_sqm ** 0.85` (line 451). -/
  areaPow : ℚ

/-- The bounds each `random.uniform`/`random.choice` call of one iteration
guarantees for its draw. -/
def ValidDraw (d : GenDraws) : Prop :=
  d.category ∈ categoriesList ∧ d.location ∈ locationsList ∧
  ((area_ranges d.category).1 : ℚ) ≤ d.areaU ∧
  d.areaU ≤ ((area_ranges d.category).2 : ℚ) ∧
  -2 ≤ d.cJit ∧ d.cJit ≤ 2 ∧ -2 ≤ d.mJit ∧ d.mJit ≤ 2 ∧
  0.95 ≤ d.seasonal ∧ d.seasonal ≤ 1.05 ∧
  0.92 ≤ d.noise ∧ d.noise ≤ 1.08

instance (d : GenDraws) : Decidable (ValidDraw d) := by
  unfold ValidDraw; infer_instance

/-- The body of one loop iteration of `generate_training_data`
(lines 425-480). -/
def genSample (d : GenDraws) : Sample :=
  let minArea : ℚ := ((area_ranges d.category).1 : ℚ)
  let maxArea : ℚ := ((area_ranges d.category).2 : ℚ)
  let area_sqm := d.areaU
  let area_percentile := (area_sqm - minArea) / (maxArea - minArea)
  let complexity_base := 3 + area_percentile * 4
  let material_base := 3 + area_percentile * 4
  let complexity_score := min 10 (max 1 (complexity_base + d.cJit))
  let material_quality_score := min 10 (max 1 (material_base + d.mJit))
  let base_price := base_rates d.category
  let location_factor := location_factors d.location
  let area_effect := area_impact d.category * d.areaPow
  let complexity_effect := base_price * (complexity_score / 5 - 1) * 0.25
  let material_effect := base_price * (material_quality_score / 5 - 1) * 0.35
  let price0 := (base_price + area_effect + complexity_effect + material_effect)
    * location_factor * d.seasonal
  let price1 := price0 * d.noise
  let price := max 1 (roundHalfEven price1)
  { category := d.category
    location := d.location
    area_sqm := round2 area_sqm
    complexity_score := round1 complexity_score
    material_quality_score := round1 material_quality_score
    price := price }

/-- `generate_training_data` (lines 325-489): `size` loop iterations, the
`i`-th using the draws `draw i`. -/
def generate_training_data (size : ℕ) (draw : ℕ → GenDraws) : List Sample :=
  (List.range size).map (fun i => genSample (draw i))

/-! ## Dispute evaluator (`evaluate_dispute`, lines 610-716) -/

/-- Lines 640-650: fairness classification from the price difference
percentage. -/
def fairnessOf (pd : ℚ) : String :=
  if |pd| ≤ 10 then "Fair"
  else if pd > 10 then "Above Market"
  else "Below Market"

/-- Lines 652-656: `area_adjustment` starts at `1.0`; for `area_sqm > 100` it
becomes `0.9 if area_sqm > 200 else 0.95`. -/
def areaAdjustment (area_sqm : ℚ) : ℚ :=
  if area_sqm > 100 then (if area_sqm > 200 then 0.9 else 0.95) else 1.0

/-- Lines 666-671: client-expectation classification from the client
difference percentage. -/
def clientAssessOf (cd : ℚ) : String :=
  if |cd| ≤ 15 then "Reasonable"
  else if cd < -15 then "Unreasonably Low"
  else "Unreasonably High"

/-- Lines 661-671: `client_assessment` is `None` without a client
expectation, a classification string otherwise. -/
def clientAssessment (fair_price : ℚ) (client_expectation : Option ℚ) :
    Option String :=
  client_expectation.map (fun ce =>
    clientAssessOf ((ce - fair_price) / fair_price * 100))

/-- The settlement recommendation of lines 674-691.  Each constructor is one
branch of the `if/elif` chain and carries the amount quoted in the
recommendation string (for `contractorJustified`, the contractor's price the
string declares justified). -/
inductive Resolution where
  /-- line 676: both parties reasonable, settle at the fair price. -/
  | bothReasonable (amount : ℚ)
  /-- line 678: client reasonable, contractor not fair — settle at the
      area-adjusted fair price. -/
  | clientReasonable (amount : ℚ)
  /-- line 680: client unreasonably low — contractor's price justified. -/
  | contractorJustified (amount : ℚ)
  /-- line 682: client unreasonably high — settle at the fair price. -/
  | fairSettlement (amount : ℚ)
  /-- line 687: split-the-difference settlement within 15% of fair. -/
  | compromise (amount : ℚ)
  /-- line 689: split-the-difference too far from fair, fall back to fair. -/
  | fallbackFair (amount : ℚ)
  /-- line 691: no client expectation given, recommend the fair price. -/
  | recommendFair (amount : ℚ)
  deriving DecidableEq, Repr

/-- The `if client_assessment:` chain of lines 674-691.  `client_assessment`
is truthy exactly when a client expectation was supplied (every assessment is
a nonempty string). -/
def resolutionOf (fair_price adjusted_fair_price contractor_price : ℚ)
    (fairness : String) (client_expectation : Option ℚ) : Resolution :=
  match client_expectation with
  | none => .recommendFair fair_price
  | some ce =>
    let ca := clientAssessOf ((ce - fair_price) / fair_price * 100)
    if ca = "Reasonable" ∧ fairness = "Fair" then
      .bothReasonable fair_price
    else if ca = "Reasonable" ∧ fairness ≠ "Fair" then
      .clientReasonable adjusted_fair_price
    else if ca = "Unreasonably Low" ∧ fairness ≠ "Above Market" then
      .contractorJustified contractor_price
    else if ca = "Unreasonably High" ∧ fairness ≠ "Below Market" then
      .fairSettlement fair_price
    else
      let settlement := (contractor_price + ce) / 2
      if |(settlement - fair_price) / fair_price| ≤ 0.15 then
        .compromise settlement
      else
        .fallbackFair fair_price

/-- The result dictionary of `evaluate_dispute` (lines 694-714); the
`recommendation` string and constant fields are omitted, `resolution` is kept
in structured form. -/
structure DisputeResult where
  category : String
  location : String
  area_sqm : ℚ
  complexity_score : ℚ
  material_quality_score : ℚ
  contractor_price : ℚ
  client_expectation : Option ℚ
  predicted_fair_price : ℚ
  area_adjusted_fair_price : ℚ
  price_difference_percentage : ℚ
  price_fairness : String
  client_expectation_assessment : Option String
  market_rate_min : ℚ
  market_rate_max : ℚ
  market_rate_avg : ℚ
  resolution : Resolution
  deriving DecidableEq, Repr

/-- `evaluate_dispute` (lines 610-716).  `mv`, `avgRate`, `sampleSize`,
`trend` are the random draws of the inner `get_market_rates` call.  The
division `(contractor_price - fair_price) / fair_price` at lines 636-637
raises `ZeroDivisionError` when the clamped prediction is `0`. -/
def evaluateDispute (st : PState) (category location : String)
    (area_sqm complexity_score material_quality_score contractor_price : ℚ)
    (client_expectation : Option ℚ) (mv avgRate : ℚ) (sampleSize : ℕ)
    (trend : String) : Except PError DisputeResult :=
  match predictFairPrice st category location area_sqm complexity_score
      material_quality_score with
  | .error e => .error e
  | .ok fair_price =>
    if fair_price = 0 then .error .zeroDivision
    else
      let market := getMarketRates category location mv avgRate sampleSize trend
      let pd := (contractor_price - fair_price) / fair_price * 100
      let fairness := fairnessOf pd
      let adjusted := fair_price * areaAdjustment area_sqm
      let ca := clientAssessment fair_price client_expectation
      let res := resolutionOf fair_price adjusted contractor_price fairness
        client_expectation
      .ok
        { category := category
          location := location
          area_sqm := area_sqm
          complexity_score := complexity_score
          material_quality_score := material_quality_score
          contractor_price := contractor_price
          client_expectation := client_expectation
          predicted_fair_price := fair_price
          area_adjusted_fair_price := adjusted
          price_difference_percentage := pd
          price_fairness := fairness
          client_expectation_assessment := ca
          market_rate_min := market.min_market_rate
          market_rate_max := market.max_market_rate
          market_rate_avg := market.avg_market_rate
          resolution := res }

/-! ## Regional analyzer

`PriceAnalyzer` defines `analyze_regional_pricing` twice (lines 491-608 and
lines 800-856).  In a Python class body the later `def` rebinds the name, so
the definition at line 800 is the one every call reaches; it is the one
embedded below.  The shadowed first version (with province grouping, median
and standard deviation) is dead code. -/

/-- One element of `regional_prices` in the effective version
(lines 824-827). -/
structure RegionalPrice where
  location : String
  price : ℚ
  deriving DecidableEq, Repr

/-- The comparison `sorted(prices, key=lambda x: x['price'])` sorts by
(line 830). -/
def rpLE (x y : RegionalPrice) : Bool := decide (x.price ≤ y.price)

/-- The result dictionary of the effective `analyze_regional_pricing`
(lines 841-854).  `price_ratio` is `none` when `min_price` is not positive,
modelling the `float('inf')` sentinel of line 838. -/
structure RegionalReport where
  category : String
  area_sqm : ℚ
  complexity_score : ℚ
  material_quality_score : ℚ
  avg_price : ℚ
  min_price : ℚ
  max_price : ℚ
  price_range : ℚ
  price_ratio : Option ℚ
  cheapest_location : String
  most_expensive_location : String
  regional_prices : List RegionalPrice
  deriving DecidableEq, Repr

/-- The keys of the result dict the effective `analyze_regional_pricing`
builds at lines 841-854, in source order. -/
def analyzeRegionalPricingKeys : List String :=
  ["category", "area_sqm", "complexity_score", "material_quality_score",
   "avg_price", "min_price", "max_price", "price_range", "price_ratio",
   "cheapest_location", "most_expensive_location", "regional_prices"]

/-- The effective `analyze_regional_pricing` (lines 800-856): raise
`ValueError` on an empty location mapping, predict a price per known location
(any exception from `predict_fair_price` propagates), sort by price, and
aggregate statistics with numpy.  `np.mean` is sum/length; the `getD`
defaults on `min?`/`max?`/`head?`/`getLast?` are unreachable because the
mapping is nonempty on this branch. -/
def analyzeRegionalPricing (st : PState) (category : String)
    (area_sqm complexity_score material_quality_score : ℚ) :
    Except PError RegionalReport :=
  if st.location_mapping.isEmpty then .error .invalidState
  else
    let locations := st.location_mapping.map Prod.fst
    match locations.mapM (fun loc =>
        (predictFairPrice st category loc area_sqm complexity_score
          material_quality_score).map (fun p => RegionalPrice.mk loc p)) with
    | .error e => .error e
    | .ok prices =>
      let prices_sorted := prices.mergeSort rpLE
      let price_values := prices.map (·.price)
      let avg_price := price_values.sum / (price_values.length : ℚ)
      let min_price := (price_values.min?).getD 0
      let max_price := (price_values.max?).getD 0
      let price_range := max_price - min_price
      let price_ratio := if min_price > 0 then some (max_price / min_price)
        else none
      .ok
        { category := category
          area_sqm := area_sqm
          complexity_score := complexity_score
          material_quality_score := material_quality_score
          avg_price := avg_price
          min_price := min_price
          max_price := max_price
          price_range := price_range
          price_ratio := price_ratio
          cheapest_location := ((prices_sorted.head?).map (·.location)).getD ""
          most_expensive_location :=
            ((prices_sorted.getLast?).map (·.location)).getD ""
          regional_prices := prices_sorted }

/-! ## Training and fine-tuning state updates -/

/-- The state update `train` performs (lines 108-146): both feature mappings
are rebuilt from scratch from the unique labels of the batch (lines 122-128);
the previous mappings are discarded.  `fitScaler` and `fitNet` stand for the
results of `scaler.fit_transform` (line 135) and `model.fit` (lines 138-144),
whose numeric content is outside the embedded fragment. -/
def train (_st : PState) (data : List Sample) (fitScaler : Scaler)
    (fitNet : Vec5 → ℚ) : PState :=
  { model := some fitNet
    scaler := some fitScaler
    category_mapping := buildMapping (uniqueInOrder (data.map (·.category)))
    location_mapping := buildMapping (uniqueInOrder (data.map (·.location))) }

/-- The mapping-extension loops of `fine_tune` (lines 734-743): a label not
yet mapped is appended with code `len(mapping)`; mapped labels are left
untouched. -/
def extendMapping (m : Mapping) (labels : List String) : Mapping :=
  labels.foldl
    (fun acc l =>
      if (List.lookup l acc).isSome then acc else acc ++ [(l, acc.length)])
    m

/-- `fine_tune` (lines 718-760): raise `ValueError` when `self.model is
None` (lines 730-732), extend both mappings append-only (lines 734-743),
transform features with the existing scaler (line 750, `NotFittedError` when
the scaler was never fitted), and refit the model (`fitNet` stands for the
result of `model.fit`, lines 753-758). -/
def fineTune (st : PState) (data : List Sample) (fitNet : Vec5 → ℚ) :
    Except PError PState :=
  match st.model with
  | none => .error .invalidState
  | some _ =>
    let cm := extendMapping st.category_mapping
      (uniqueInOrder (data.map (·.category)))
    let lm := extendMapping st.location_mapping
      (uniqueInOrder (data.map (·.location)))
    match st.scaler with
    | none => .error .notFitted
    | some _ =>
      .ok { model := some fitNet, scaler := st.scaler,
            category_mapping := cm, location_mapping := lm }

/-- `list(mapping.keys())[0]`, the default label used for unknown inputs
(lines 189, 193); meaningful only for a nonempty mapping. -/
def firstLabel (m : Mapping) : String := ((m.head?).map Prod.fst).getD ""

/-- The label `predict_fair_price` actually uses after the unknown-label
fallback of lines 187-194 (derived form of `resolveLabel` for a nonempty
mapping). -/
def resolvedLabel (m : Mapping) (x : String) : String :=
  if (List.lookup x m).isSome then x else firstLabel m

/-- The value `predict_fair_price` returns on the success path (lines
197-211), for a state with scaler `sc` and model `net`. -/
def predOut (st : PState) (sc : Scaler) (net : Vec5 → ℚ)
    (category location : String) (a c m : ℚ) : ℚ :=
  let cat := resolvedLabel st.category_mapping category
  let loc := resolvedLabel st.location_mapping location
  max 0 (net (sc.transform
    ⟨((List.lookup cat st.category_mapping).getD 0 : ℕ),
     ((List.lookup loc st.location_mapping).getD 0 : ℕ), a, c, m⟩))

/-- The per-location price list the effective `analyze_regional_pricing`
builds at lines 817-827, for a state with scaler `sc` and model `net`. -/
def regionalPrices (st : PState) (sc : Scaler) (net : Vec5 → ℚ)
    (category : String) (a c m : ℚ) : List RegionalPrice :=
  (st.location_mapping.map Prod.fst).map
    (fun loc => ⟨loc, predOut st sc net category loc a c m⟩)

/-- The report the effective `analyze_regional_pricing` returns on its
success path (lines 829-856), for a state with scaler `sc` and model
`net`. -/
def regionalReport (st : PState) (sc : Scaler) (net : Vec5 → ℚ)
    (category : String) (a c m : ℚ) : RegionalReport :=
  let prices := regionalPrices st sc net category a c m
  let prices_sorted := prices.mergeSort rpLE
  let price_values := prices.map (·.price)
  let avg_price := price_values.sum / (price_values.length : ℚ)
  let min_price := (price_values.min?).getD 0
  let max_price := (price_values.max?).getD 0
  { category := category
    area_sqm := a
    complexity_score := c
    material_quality_score := m
    avg_price := avg_price
    min_price := min_price
    max_price := max_price
    price_range := max_price - min_price
    price_ratio := if min_price > 0 then some (max_price / min_price)
      else none
    cheapest_location := ((prices_sorted.head?).map (·.location)).getD ""
    most_expensive_location :=
      ((prices_sorted.getLast?).map (·.location)).getD ""
    regional_prices := prices_sorted }

/-- Antisymmetry of ≤ on ℚ in the instance form the `List.min?`/`List.max?`
characterisation lemmas expect. -/
instance : Std.Antisymm (fun (a b : ℚ) => a ≤ b) :=
  ⟨fun h1 h2 => le_antisymm h1 h2⟩

/-! ## Concrete fixtures used by witnesses and counterexamples -/

/-- Identity scaling (mean 0, scale 1 per feature). -/
def scaler1 : Scaler := ⟨⟨0, 0, 0, 0, 0⟩, ⟨1, 1, 1, 1, 1⟩⟩

/-- A network that outputs the constant 7. -/
def net7 : Vec5 → ℚ := fun _ => 7

/-- A network that outputs the constant -1 (the output layer of the model,
a plain `Dense(1)`, is unbounded below, so negative outputs are possible). -/
def netNeg : Vec5 → ℚ := fun _ => -1

/-- A trained-looking state with two categories and two locations. -/
def stW : PState :=
  ⟨some net7, some scaler1, [("Masonry", 0), ("Plumbing", 1)],
   [("Colombo", 0), ("Kandy", 1)]⟩

/-- A trained-looking state whose network always predicts a negative value,
so the clamped fair price is 0. -/
def stZero : PState :=
  ⟨some netNeg, some scaler1, [("Masonry", 0)], [("Colombo", 0)]⟩

/-- A state with mappings and scaler but `model = None`. -/
def stNoModel : PState :=
  ⟨none, some scaler1, [("Masonry", 0)], [("Colombo", 0)]⟩

/-- The freshly constructed state: no mappings, nothing fitted. -/
def st0 : PState := ⟨none, none, [], []⟩

/-- A training row with the given labels. -/
def sampleOf (cat loc : String) : Sample := ⟨cat, loc, 50, 5, 5, 1000⟩

/-- Concrete generator draws for one iteration. -/
def drawW : GenDraws := ⟨"Masonry", "Colombo", 50, 0, 0, 1, 1, 10⟩

/-- The dispute result of `evaluateDispute stW "Masonry" "Colombo" 50 5 5 14
(some 7) 1 4320 30 "Stable"`, written out. -/
def rW : DisputeResult :=
  { category := "Masonry"
    location := "Colombo"
    area_sqm := 50
    complexity_score := 5
    material_quality_score := 5
    contractor_price := 14
    client_expectation := some 7
    predicted_fair_price := 7
    area_adjusted_fair_price := 7
    price_difference_percentage := 100
    price_fairness := "Above Market"
    client_expectation_assessment := some "Reasonable"
    market_rate_min := 3888
    market_rate_max := 4752
    market_rate_avg := 4320
    resolution := .clientReasonable 7 }

/-- The state `fineTune stW [sampleOf "Tiling" "Galle"] net7` produces:
both mappings extended append-only by one fresh code. -/
def stFT : PState :=
  ⟨some net7, some scaler1,
   [("Masonry", 0), ("Plumbing", 1), ("Tiling", 2)],
   [("Colombo", 0), ("Kandy", 1), ("Galle", 2)]⟩

/-! ## Theorems -/

/-- Helper: a property preserved by both branches holds for the whole
`if`; used to traverse the embedded lookup-table `if`-chains. -/
theorem ite_holds {P : ℚ → Prop} {c : Prop} [Decidable c] {a b : ℚ}
    (ha : P a) (hb : P b) : P (if c then a else b) := by
  split
  · exact ha
  · exact hb

/-- C2: for every input (category, location, area_sqm, complexity_score,
material_quality_score), whenever `predict_fair_price` returns a value, that
value is ≥ 0: the prediction is clamped with `max(0, prediction)`
(line 211). -/
theorem predict_fair_price_nonneg (st : PState) (category location : String)
    (area_sqm complexity_score material_quality_score p : ℚ)
    (h : predictFairPrice st category location area_sqm complexity_score
      material_quality_score = .ok p) : 0 ≤ p := by
  unfold predictFairPrice at h
  repeat' split at h
  any_goals exact Except.noConfusion h
  simp only [Except.ok.injEq] at h
  exact h ▸ le_max_left 0 _

/-- Helper: the prediction of the `stW` fixture on a concrete query. -/
theorem predict_stW_eq :
    predictFairPrice stW "Masonry" "Colombo" 50 5 5 = .ok 7 := by
  have h1 : resolveLabel stW.category_mapping "Masonry" = .ok "Masonry" := by
    simp [resolveLabel, stW, List.lookup]
  have h2 : resolveLabel stW.location_mapping "Colombo" = .ok "Colombo" := by
    simp [resolveLabel, stW, List.lookup]
  rw [predictFairPrice, h1, h2]
  show Except.ok (max 0 (net7 _)) = _
  norm_num [net7, max_eq_right]

/-- Witness for C2 at a concrete loaded state. -/
theorem predict_fair_price_nonneg_witness :
    predictFairPrice stW "Masonry" "Colombo" 50 5 5 = .ok 7 ∧ (0 : ℚ) ≤ 7 :=
  ⟨predict_stW_eq,
   predict_fair_price_nonneg stW "Masonry" "Colombo" 50 5 5 7 predict_stW_eq⟩

/-- C6: every snapshot `get_market_rates` returns satisfies
`min_market_rate ≤ avg_market_rate ≤ max_market_rate`, for any outcome of the
bounded random jitter (`mv` within the ±5% band of line 289, `avgRate` within
the ±2% band of lines 298-299). -/
theorem market_rates_min_le_avg_le_max (category location trend : String)
    (mv avgRate : ℚ) (sampleSize : ℕ)
    (hmv1 : 0.95 ≤ mv) (hmv2 : mv ≤ 1.05)
    (havg1 : materialAdjustedRate category location mv * 0.98 ≤ avgRate)
    (havg2 : avgRate ≤ materialAdjustedRate category location mv * 1.02) :
    (getMarketRates category location mv avgRate sampleSize
        trend).min_market_rate ≤
      (getMarketRates category location mv avgRate sampleSize
        trend).avg_market_rate ∧
    (getMarketRates category location mv avgRate sampleSize
        trend).avg_market_rate ≤
      (getMarketRates category location mv avgRate sampleSize
        trend).max_market_rate := by
  have hb : 0 < base_rates category := by
    unfold base_rates; repeat' apply ite_holds
    all_goals norm_num
  have hf : 0 < location_factors location := by
    unfold location_factors; repeat' apply ite_holds
    all_goals norm_num
  have hm1 : 0 < material_percentage category := by
    unfold material_percentage; repeat' apply ite_holds
    all_goals norm_num
  have hm2 : material_percentage category ≤ 1 := by
    unfold material_percentage
    repeat' apply ite_holds (P := fun x => x ≤ 1)
    all_goals norm_num
  have hmar : 0 ≤ materialAdjustedRate category location mv := by
    unfold materialAdjustedRate
    have h1 : (0 : ℚ) ≤ 1 + (mv - 1) * material_percentage category := by
      nlinarith
    exact mul_nonneg (mul_nonneg hb.le hf.le) h1
  constructor
  · show materialAdjustedRate category location mv * 0.90 ≤ avgRate
    linarith
  · show avgRate ≤ materialAdjustedRate category location mv * 1.10
    linarith

/-- Witness for C6 at a concrete category/location and jitter outcome. -/
theorem market_rates_min_le_avg_le_max_witness :
    ((0.95 : ℚ) ≤ 1 ∧ (1 : ℚ) ≤ 1.05 ∧
      materialAdjustedRate "Masonry" "Colombo" 1 * 0.98 ≤ 4320 ∧
      (4320 : ℚ) ≤ materialAdjustedRate "Masonry" "Colombo" 1 * 1.02) ∧
    ((getMarketRates "Masonry" "Colombo" 1 4320 30 "Stable").min_market_rate ≤
      (getMarketRates "Masonry" "Colombo" 1 4320 30 "Stable").avg_market_rate ∧
     (getMarketRates "Masonry" "Colombo" 1 4320 30 "Stable").avg_market_rate ≤
      (getMarketRates "Masonry" "Colombo" 1 4320 30 "Stable").max_market_rate) := by
  have hmar : materialAdjustedRate "Masonry" "Colombo" 1 = 4320 := by
    norm_num [materialAdjustedRate, base_rates, location_factors,
      material_percentage]
  refine ⟨⟨by norm_num, by norm_num, by rw [hmar]; norm_num,
    by rw [hmar]; norm_num⟩,
    market_rates_min_le_avg_le_max "Masonry" "Colombo" "Stable" 1 4320 30
      (by norm_num) (by norm_num) (by rw [hmar]; norm_num)
      (by rw [hmar]; norm_num)⟩

/-- C9 counterexample: estimating with an absent model does NOT fail with the
guarded `ValueError` (`invalidState`): `predict_fair_price` has no model
check, so with `self.model is None` it runs into `self.model.predict` and
fails with `AttributeError` instead (line 209). -/
theorem estimate_no_model_not_invalid_state :
    predictFairPrice stNoModel "Masonry" "Colombo" 50 5 5 =
      .error .attributeError ∧
    PError.attributeError ≠ PError.invalidState := by
  constructor
  · simp [predictFairPrice, stNoModel, resolveLabel, List.lookup]
  · decide

/-- C9 amended: every call to `fine_tune` while the model is absent raises
the guarded `ValueError` ("No model exists", lines 730-732). -/
theorem fine_tune_no_model_invalid_state (st : PState) (data : List Sample)
    (fitNet : Vec5 → ℚ) (h : st.model = none) :
    fineTune st data fitNet = .error .invalidState := by
  unfold fineTune
  rw [h]

/-- Witness for the amended C9 at a concrete state. -/
theorem fine_tune_no_model_invalid_state_witness :
    stNoModel.model = none ∧
    fineTune stNoModel [sampleOf "Tiling" "Galle"] net7 =
      .error .invalidState :=
  ⟨rfl, fine_tune_no_model_invalid_state stNoModel
    [sampleOf "Tiling" "Galle"] net7 rfl⟩

/-- Helper: the lines-677-678 branch of the settlement table: a "Reasonable"
client assessment with a non-"Fair" contractor classification settles at the
area-adjusted fair price. -/
theorem resolutionOf_client_reasonable (fair adj contractor : ℚ)
    (fairness : String) (ce : ℚ)
    (hras : clientAssessOf ((ce - fair) / fair * 100) = "Reasonable")
    (hfair : fairness ≠ "Fair") :
    resolutionOf fair adj contractor fairness (some ce) =
      .clientReasonable adj := by
  unfold resolutionOf
  dsimp only
  rw [hras]
  rw [if_neg (fun h => hfair h.2), if_pos ⟨rfl, hfair⟩]

/-- C10: in every `evaluate_dispute` result, `area_adjusted_fair_price` is
the predicted fair price times 1.0 for `area_sqm ≤ 100`, 0.95 for
`100 < area_sqm ≤ 200` and 0.9 for `area_sqm > 200` (lines 652-658), and
whenever the client assessment is "Reasonable" while the contractor price is
not "Fair", the recommended settlement is that area-adjusted value
(lines 677-678). -/
theorem dispute_area_adjusted_settlement (st : PState)
    (category location trend : String)
    (a c m contractor mv avgRate : ℚ) (ce? : Option ℚ) (sampleSize : ℕ)
    (r : DisputeResult)
    (hr : evaluateDispute st category location a c m contractor ce? mv
      avgRate sampleSize trend = .ok r)
    (hca : r.client_expectation_assessment = some "Reasonable")
    (hfair : r.price_fairness ≠ "Fair") :
    r.area_adjusted_fair_price =
      r.predicted_fair_price *
        (if a ≤ 100 then 1 else if a ≤ 200 then 0.95 else 0.9) ∧
    r.resolution = Resolution.clientReasonable r.area_adjusted_fair_price := by
  unfold evaluateDispute at hr
  split at hr
  · exact Except.noConfusion hr
  rename_i fair hpred
  split at hr
  · exact Except.noConfusion hr
  rename_i hfz
  simp only [Except.ok.injEq] at hr
  subst hr
  dsimp only at hca hfair ⊢
  constructor
  · unfold areaAdjustment
    split_ifs <;> first | rfl | linarith
  · unfold clientAssessment at hca
    rcases Option.map_eq_some'.mp hca with ⟨ce, hce, hras⟩
    subst hce
    exact resolutionOf_client_reasonable _ _ _ _ _ hras hfair

/-- C5 counterexample: with a model whose (unbounded) output is negative, the
clamped fair price is 0; calling `evaluate_dispute` with a contractor price
equal to that fair price (0) raises `ZeroDivisionError` at line 636-637
instead of classifying the price as "Fair". -/
theorem dispute_equal_price_zero_raises :
    predictFairPrice stZero "Masonry" "Colombo" 50 5 5 = .ok 0 ∧
    evaluateDispute stZero "Masonry" "Colombo" 50 5 5 0 none 1 0 30 "Stable" =
      .error .zeroDivision := by
  have h1 : resolveLabel stZero.category_mapping "Masonry" = .ok "Masonry" := by
    simp [resolveLabel, stZero, List.lookup]
  have h2 : resolveLabel stZero.location_mapping "Colombo" = .ok "Colombo" := by
    simp [resolveLabel, stZero, List.lookup]
  have hp : predictFairPrice stZero "Masonry" "Colombo" 50 5 5 = .ok 0 := by
    rw [predictFairPrice, h1, h2]
    show Except.ok (max 0 (-1 : ℚ)) = _
    rw [max_eq_left (by norm_num : (-1 : ℚ) ≤ 0)]
  refine ⟨hp, ?_⟩
  unfold evaluateDispute
  rw [hp]
  dsimp only
  rw [if_pos rfl]

/-- C5 amended: whenever the predicted fair price is nonzero and the
contractor quotes exactly that price, `evaluate_dispute` succeeds and
classifies the price as "Fair" (difference percentage 0, within ±10%,
lines 636-642). -/
theorem dispute_equal_price_fair (st : PState)
    (category location trend : String)
    (a c m fair mv avgRate : ℚ) (ce? : Option ℚ) (sampleSize : ℕ)
    (hpred : predictFairPrice st category location a c m = .ok fair)
    (hfz : fair ≠ 0) :
    ∃ r, evaluateDispute st category location a c m fair ce? mv avgRate
        sampleSize trend = .ok r ∧
      r.price_fairness = "Fair" := by
  unfold evaluateDispute
  rw [hpred]
  dsimp only
  rw [if_neg hfz]
  refine ⟨_, rfl, ?_⟩
  dsimp only
  have hz : (fair - fair) / fair * 100 = 0 := by
    rw [sub_self, zero_div, zero_mul]
  rw [hz]
  unfold fairnessOf
  rw [if_pos (by norm_num : |(0 : ℚ)| ≤ 10)]

/-- Witness for the amended C5 at a concrete loaded state. -/
theorem dispute_equal_price_fair_witness :
    (predictFairPrice stW "Masonry" "Colombo" 50 5 5 = .ok 7 ∧
      (7 : ℚ) ≠ 0) ∧
    (∃ r, evaluateDispute stW "Masonry" "Colombo" 50 5 5 7 none 1 4320 30
        "Stable" = .ok r ∧ r.price_fairness = "Fair") :=
  ⟨⟨predict_stW_eq, by norm_num⟩,
   dispute_equal_price_fair stW "Masonry" "Colombo" "Stable" 50 5 5 7 1 4320
     none 30 predict_stW_eq (by norm_num)⟩

/-- Witness for C10 at a concrete dispute with a "Reasonable" client and an
"Above Market" contractor price. -/
theorem dispute_area_adjusted_settlement_witness :
    (evaluateDispute stW "Masonry" "Colombo" 50 5 5 14 (some 7) 1 4320 30
        "Stable" = .ok rW ∧
      rW.client_expectation_assessment = some "Reasonable" ∧
      rW.price_fairness ≠ "Fair") ∧
    (rW.area_adjusted_fair_price =
        rW.predicted_fair_price *
          (if (50 : ℚ) ≤ 100 then 1 else if (50 : ℚ) ≤ 200 then 0.95
            else 0.9) ∧
      rW.resolution =
        Resolution.clientReasonable rW.area_adjusted_fair_price) := by
  have habs100 : |(100 : ℚ)| = 100 := abs_of_nonneg (by norm_num)
  have hok : evaluateDispute stW "Masonry" "Colombo" 50 5 5 14 (some 7) 1
      4320 30 "Stable" = .ok rW := by
    rw [evaluateDispute, predict_stW_eq]
    dsimp only
    rw [if_neg (by norm_num : ¬(7 : ℚ) = 0)]
    refine congrArg Except.ok ?_
    unfold rW
    norm_num [DisputeResult.mk.injEq, getMarketRates, base_rates,
      location_factors, material_percentage, fairnessOf, areaAdjustment,
      clientAssessment, clientAssessOf, resolutionOf, habs100, abs_zero]
    simp
  have hca : rW.client_expectation_assessment = some "Reasonable" := rfl
  have hfair : rW.price_fairness ≠ "Fair" := by
    intro h
    exact absurd h (by unfold rW; simp)
  exact ⟨⟨hok, hca, hfair⟩,
    dispute_area_adjusted_settlement stW "Masonry" "Colombo" "Stable" 50 5 5
      14 1 4320 (some 7) 30 rW hok hca hfair⟩

/-- Helper: lookup success is membership of the key list. -/
theorem lookup_isSome_iff (m : Mapping) (k : String) :
    (List.lookup k m).isSome = true ↔ k ∈ m.map Prod.fst := by
  induction m with
  | nil => simp [List.lookup]
  | cons p t ih =>
    obtain ⟨a, b⟩ := p
    by_cases hk : k = a
    · subst hk
      simp [List.lookup]
    · have hba : (k == a) = false := beq_eq_false_iff_ne.mpr hk
      simp only [List.lookup_cons, hba, List.map_cons, List.mem_cons]
      rw [ih]
      constructor
      · exact Or.inr
      · rintro (h | h)
        · exact absurd h hk
        · exact h

/-- Helper: a label present in the mapping resolves to itself (line 188). -/
theorem resolveLabel_mem (m : Mapping) (k : String)
    (h : k ∈ m.map Prod.fst) : resolveLabel m k = .ok k := by
  unfold resolveLabel
  rw [if_pos ((lookup_isSome_iff m k).mpr h)]

/-- Helper: an unmapped label resolves to the first mapped label
(lines 188-194). -/
theorem resolveLabel_not_mem (m : Mapping) (k : String)
    (hk : k ∉ m.map Prod.fst) (hm : m ≠ []) :
    resolveLabel m k = .ok (firstLabel m) := by
  unfold resolveLabel
  rw [if_neg (fun h => hk ((lookup_isSome_iff m k).mp h))]
  rcases m with _ | ⟨⟨a, b⟩, t⟩
  · exact absurd rfl hm
  · rfl

/-- Helper: the first mapped label is among the keys. -/
theorem firstLabel_mem (m : Mapping) (hm : m ≠ []) :
    firstLabel m ∈ m.map Prod.fst := by
  rcases m with _ | ⟨⟨a, b⟩, t⟩
  · exact absurd rfl hm
  · exact List.mem_cons_self _ _

/-- Helper: for a nonempty mapping, label resolution always succeeds, with
`resolvedLabel` as the resolved label. -/
theorem resolveLabel_eq (m : Mapping) (x : String) (hm : m ≠ []) :
    resolveLabel m x = .ok (resolvedLabel m x) := by
  unfold resolveLabel resolvedLabel
  split_ifs with h
  · rfl
  · rcases m with _ | ⟨⟨a, b⟩, t⟩
    · exact absurd rfl hm
    · rfl

/-- C4: per-label aliasing on a loaded estimator (lines 187-194).  For ANY
location argument, an unknown category does not raise: the estimate is
computed exactly as if the first mapped category had been supplied; and
likewise, for ANY category argument, an unknown location resolves to the
first mapped location.  The two fallbacks are independent: each conjunct
leaves the other label arbitrary (known or unknown). -/
theorem unknown_labels_use_default (st : PState) (category location : String)
    (a c m : ℚ) (sc : Scaler) (net : Vec5 → ℚ)
    (hsc : st.scaler = some sc) (hnet : st.model = some net)
    (hcm : st.category_mapping ≠ []) (hlm : st.location_mapping ≠ []) :
    (category ∉ st.category_mapping.map Prod.fst →
      predictFairPrice st category location a c m =
        predictFairPrice st (firstLabel st.category_mapping) location a c m ∧
      (predictFairPrice st category location a c m).isOk = true) ∧
    (location ∉ st.location_mapping.map Prod.fst →
      predictFairPrice st category location a c m =
        predictFairPrice st category (firstLabel st.location_mapping) a c m ∧
      (predictFairPrice st category location a c m).isOk = true) := by
  have hc2 := resolveLabel_mem st.category_mapping _ (firstLabel_mem _ hcm)
  have hl2 := resolveLabel_mem st.location_mapping _ (firstLabel_mem _ hlm)
  constructor
  · intro hcat
    have hc1 := resolveLabel_not_mem st.category_mapping category hcat hcm
    constructor
    · simp only [predictFairPrice]
      rw [hc1, hc2, resolveLabel_eq st.location_mapping location hlm]
    · simp only [predictFairPrice]
      rw [hc1, resolveLabel_eq st.location_mapping location hlm, hsc, hnet]
      rfl
  · intro hloc
    have hl1 := resolveLabel_not_mem st.location_mapping location hloc hlm
    constructor
    · simp only [predictFairPrice]
      rw [hl1, hl2, resolveLabel_eq st.category_mapping category hcm]
    · simp only [predictFairPrice]
      rw [hl1, resolveLabel_eq st.category_mapping category hcm, hsc, hnet]
      rfl

/-- Witness for C4: the spec's central case — the unknown category "Bogus"
together with the KNOWN location "Colombo" on the `stW` fixture. -/
theorem unknown_labels_use_default_witness :
    (stW.scaler = some scaler1 ∧ stW.model = some net7 ∧
     stW.category_mapping ≠ [] ∧ stW.location_mapping ≠ [] ∧
     "Bogus" ∉ stW.category_mapping.map Prod.fst ∧
     "Colombo" ∈ stW.location_mapping.map Prod.fst) ∧
    (predictFairPrice stW "Bogus" "Colombo" 50 5 5 =
       predictFairPrice stW (firstLabel stW.category_mapping) "Colombo"
         50 5 5 ∧
     (predictFairPrice stW "Bogus" "Colombo" 50 5 5).isOk = true) :=
  ⟨⟨rfl, rfl, by decide, by decide, by decide, by decide⟩,
   (unknown_labels_use_default stW "Bogus" "Colombo" 50 5 5 scaler1 net7
     rfl rfl (by decide) (by decide)).1 (by decide)⟩

/-- C1 counterexample: `train` rebuilds the category mapping from scratch
from the batch (lines 122-128); training again on a batch whose
unique-category order differs reassigns the code of the already-mapped label
"Tiling" from 1 to 0. -/
theorem train_reassigns_existing_code :
    List.lookup "Tiling"
      (train st0 [sampleOf "Masonry" "Colombo", sampleOf "Tiling" "Kandy"]
        scaler1 net7).category_mapping = some 1 ∧
    List.lookup "Tiling"
      (train
        (train st0 [sampleOf "Masonry" "Colombo", sampleOf "Tiling" "Kandy"]
          scaler1 net7)
        [sampleOf "Tiling" "Colombo"] scaler1 net7).category_mapping =
      some 0 ∧
    (1 : ℕ) ≠ 0 :=
  ⟨rfl, rfl, by decide⟩

/-- Helper: a successful lookup survives appending entries on the right. -/
theorem lookup_append_left (m1 m2 : Mapping) (k : String) (v : ℕ)
    (h : List.lookup k m1 = some v) :
    List.lookup k (m1 ++ m2) = some v := by
  induction m1 with
  | nil => simp [List.lookup] at h
  | cons p t ih =>
    obtain ⟨a, b⟩ := p
    rw [List.cons_append]
    cases hka : (k == a) with
    | true =>
      simp [List.lookup_cons, hka] at h ⊢
      exact h
    | false =>
      simp only [List.lookup_cons, hka] at h ⊢
      exact ih h

/-- Helper: a failed lookup in the prefix falls through to the suffix. -/
theorem lookup_append_right (m1 m2 : Mapping) (k : String)
    (h : List.lookup k m1 = none) :
    List.lookup k (m1 ++ m2) = List.lookup k m2 := by
  induction m1 with
  | nil => rfl
  | cons p t ih =>
    obtain ⟨a, b⟩ := p
    rw [List.cons_append]
    cases hka : (k == a) with
    | true => simp [List.lookup_cons, hka] at h
    | false =>
      simp only [List.lookup_cons, hka] at h ⊢
      exact ih h

/-- Helper: the extension loop of `fine_tune` leaves every existing entry's
code unchanged. -/
theorem extendMapping_preserves (ls : List String) (m : Mapping) (k : String)
    (v : ℕ) (h : List.lookup k m = some v) :
    List.lookup k (extendMapping m ls) = some v := by
  induction ls generalizing m with
  | nil => exact h
  | cons l t ih =>
    show List.lookup k
      (extendMapping
        (if (List.lookup l m).isSome then m else m ++ [(l, m.length)]) t) =
      some v
    apply ih
    split
    · exact h
    · exact lookup_append_left _ _ _ _ h

/-- Helper: after the extension loop every processed label is mapped. -/
theorem extendMapping_covers (ls : List String) (m : Mapping) (l : String)
    (hl : l ∈ ls) : (List.lookup l (extendMapping m ls)).isSome = true := by
  induction ls generalizing m with
  | nil => simp at hl
  | cons a t ih =>
    show (List.lookup l
      (extendMapping
        (if (List.lookup a m).isSome then m else m ++ [(a, m.length)])
        t)).isSome = true
    rcases List.mem_cons.mp hl with rfl | hmem
    · have hstep : ∃ w, List.lookup l
          (if (List.lookup l m).isSome then m else m ++ [(l, m.length)]) =
          some w := by
        split
        · rename_i hs
          exact Option.isSome_iff_exists.mp hs
        · rename_i hs
          refine ⟨m.length, ?_⟩
          rw [lookup_append_right _ _ _
            (Option.not_isSome_iff_eq_none.mp hs)]
          simp [List.lookup]
      obtain ⟨w, hw⟩ := hstep
      rw [extendMapping_preserves t _ l w hw]
      rfl
    · exact ih _ hmem

/-- Helper: membership through the fold implementing `pandas.unique`. -/
theorem mem_uniqueInOrder_foldl (xs : List String) (acc : List String)
    (x : String) :
    x ∈ xs.foldl (fun a y => if y ∈ a then a else a ++ [y]) acc ↔
      x ∈ acc ∨ x ∈ xs := by
  induction xs generalizing acc with
  | nil => simp
  | cons a t ih =>
    rw [List.foldl_cons, ih]
    by_cases hmem : a ∈ acc
    · rw [if_pos hmem]
      simp only [List.mem_cons]
      constructor
      · rintro (h | h)
        · exact Or.inl h
        · exact Or.inr (Or.inr h)
      · rintro (h | rfl | h)
        · exact Or.inl h
        · exact Or.inl hmem
        · exact Or.inr h
    · rw [if_neg hmem]
      simp only [List.mem_append, List.mem_cons, List.mem_singleton]
      tauto

/-- Helper: `uniqueInOrder` preserves membership. -/
theorem mem_uniqueInOrder (xs : List String) (x : String) :
    x ∈ uniqueInOrder xs ↔ x ∈ xs := by
  unfold uniqueInOrder
  rw [mem_uniqueInOrder_foldl]
  simp

/-- C1 amended: `fine_tune` extends both mappings append-only — every
already-mapped label keeps its exact code, and every label of the batch is
mapped afterwards (lines 734-743).  `train` instead rebuilds both mappings
from the batch alone, so it can reassign existing codes (see the
counterexample). -/
theorem fine_tune_mappings_append_only (st : PState) (data : List Sample)
    (fitNet : Vec5 → ℚ) (st' : PState)
    (h : fineTune st data fitNet = .ok st') :
    (∀ k v, List.lookup k st.category_mapping = some v →
      List.lookup k st'.category_mapping = some v) ∧
    (∀ k v, List.lookup k st.location_mapping = some v →
      List.lookup k st'.location_mapping = some v) ∧
    ∀ s ∈ data,
      (List.lookup s.category st'.category_mapping).isSome = true ∧
      (List.lookup s.location st'.location_mapping).isSome = true := by
  unfold fineTune at h
  split at h
  · exact Except.noConfusion h
  split at h
  · exact Except.noConfusion h
  simp only [Except.ok.injEq] at h
  subst h
  refine ⟨?_, ?_, ?_⟩
  · intro k v hv
    exact extendMapping_preserves _ _ _ _ hv
  · intro k v hv
    exact extendMapping_preserves _ _ _ _ hv
  · intro s hs
    exact ⟨extendMapping_covers _ _ _
        ((mem_uniqueInOrder _ _).mpr (List.mem_map_of_mem _ hs)),
      extendMapping_covers _ _ _
        ((mem_uniqueInOrder _ _).mpr (List.mem_map_of_mem _ hs))⟩

/-- Witness for the amended C1: fine-tuning `stW` with one new category and
location appends fresh codes and keeps all old ones. -/
theorem fine_tune_mappings_append_only_witness :
    fineTune stW [sampleOf "Tiling" "Galle"] net7 = .ok stFT ∧
    ((∀ k v, List.lookup k stW.category_mapping = some v →
        List.lookup k stFT.category_mapping = some v) ∧
     (∀ k v, List.lookup k stW.location_mapping = some v →
        List.lookup k stFT.location_mapping = some v) ∧
     ∀ s ∈ [sampleOf "Tiling" "Galle"],
       (List.lookup s.category stFT.category_mapping).isSome = true ∧
       (List.lookup s.location stFT.location_mapping).isSome = true) := by
  have h : fineTune stW [sampleOf "Tiling" "Galle"] net7 = .ok stFT := rfl
  exact ⟨h, fine_tune_mappings_append_only stW _ net7 stFT h⟩

/-- Helper: banker's rounding lies between floor and ceiling. -/
theorem roundHalfEven_bounds (x : ℚ) :
    Int.floor x ≤ roundHalfEven x ∧ roundHalfEven x ≤ Int.ceil x := by
  have hcl : x ≤ (Int.ceil x : ℚ) := Int.le_ceil x
  have hceil_of_lt : (Int.floor x : ℚ) < x → Int.floor x + 1 ≤ Int.ceil x := by
    intro hlt
    have hq : (Int.floor x : ℚ) < (Int.ceil x : ℚ) := lt_of_lt_of_le hlt hcl
    have h2 : Int.floor x < Int.ceil x := by exact_mod_cast hq
    linarith
  simp only [roundHalfEven]
  constructor
  · split_ifs <;> linarith
  · split_ifs with h1 h2 h3
    · exact Int.floor_le_ceil x
    · exact hceil_of_lt (by linarith)
    · exact Int.floor_le_ceil x
    · exact hceil_of_lt (by linarith [not_lt.mp h1])

/-- Helper: Python `round(x, 2)` stays within any integer bounds on `x`. -/
theorem round2_bounds (lo hi : ℤ) (u : ℚ) (h1 : (lo : ℚ) ≤ u)
    (h2 : u ≤ (hi : ℚ)) : (lo : ℚ) ≤ round2 u ∧ round2 u ≤ (hi : ℚ) := by
  obtain ⟨hfl, hcl⟩ := roundHalfEven_bounds (u * 100)
  have hlo : (100 * lo : ℤ) ≤ Int.floor (u * 100) := by
    apply Int.le_floor.mpr
    push_cast
    linarith
  have hhi : Int.ceil (u * 100) ≤ (100 * hi : ℤ) := by
    apply Int.ceil_le.mpr
    push_cast
    linarith
  have hlo' : (100 * lo : ℤ) ≤ roundHalfEven (u * 100) := le_trans hlo hfl
  have hhi' : roundHalfEven (u * 100) ≤ (100 * hi : ℤ) := le_trans hcl hhi
  unfold round2
  constructor
  · rw [le_div_iff (by norm_num : (0 : ℚ) < 100)]
    have hc : ((100 * lo : ℤ) : ℚ) ≤ (roundHalfEven (u * 100) : ℚ) := by
      exact_mod_cast hlo'
    push_cast at hc
    linarith
  · rw [div_le_iff (by norm_num : (0 : ℚ) < 100)]
    have hc : ((roundHalfEven (u * 100) : ℤ) : ℚ) ≤ ((100 * hi : ℤ) : ℚ) := by
      exact_mod_cast hhi'
    push_cast at hc
    linarith

/-- C7: `generate_training_data(size)` returns exactly `size` samples; every
sample has `price ≥ 1` (`max(1, round(price))`, line 471) and an `area_sqm`
(rounded to 2 decimals, line 476) within the category's declared range
(lines 430-431). -/
theorem generate_training_data_spec (size : ℕ) (draw : ℕ → GenDraws)
    (h : ∀ i < size, ValidDraw (draw i)) :
    (generate_training_data size draw).length = size ∧
    ∀ s ∈ generate_training_data size draw,
      1 ≤ s.price ∧
      ((area_ranges s.category).1 : ℚ) ≤ s.area_sqm ∧
      s.area_sqm ≤ ((area_ranges s.category).2 : ℚ) := by
  constructor
  · simp [generate_training_data]
  · intro s hs
    simp only [generate_training_data, List.mem_map, List.mem_range] at hs
    obtain ⟨i, hi, rfl⟩ := hs
    obtain ⟨-, -, ha1, ha2, -⟩ := h i hi
    refine ⟨le_max_left 1 _, ?_, ?_⟩
    · exact (round2_bounds _ _ _ ha1 ha2).1
    · exact (round2_bounds _ _ _ ha1 ha2).2

/-- Witness for C7 with one concrete draw. -/
theorem generate_training_data_spec_witness :
    (∀ i < 1, ValidDraw ((fun _ => drawW) i)) ∧
    ((generate_training_data 1 (fun _ => drawW)).length = 1 ∧
     ∀ s ∈ generate_training_data 1 (fun _ => drawW),
       1 ≤ s.price ∧
       ((area_ranges s.category).1 : ℚ) ≤ s.area_sqm ∧
       s.area_sqm ≤ ((area_ranges s.category).2 : ℚ)) := by
  have hv : ValidDraw drawW := by
    unfold ValidDraw
    refine ⟨by decide, by decide, ?_, ?_, by norm_num [drawW],
      by norm_num [drawW], by norm_num [drawW], by norm_num [drawW],
      by norm_num [drawW], by norm_num [drawW], by norm_num [drawW],
      by norm_num [drawW]⟩
    · norm_num [drawW, area_ranges]
    · norm_num [drawW, area_ranges]
  exact ⟨fun i _ => hv,
    generate_training_data_spec 1 (fun _ => drawW) (fun i _ => hv)⟩

/-- Helper: on a loaded state the prediction succeeds with value
`predOut`. -/
theorem predict_eq_predOut (st : PState) (sc : Scaler) (net : Vec5 → ℚ)
    (hsc : st.scaler = some sc) (hnet : st.model = some net)
    (hcm : st.category_mapping ≠ []) (hlm : st.location_mapping ≠ [])
    (category location : String) (a c m : ℚ) :
    predictFairPrice st category location a c m =
      .ok (predOut st sc net category location a c m) := by
  rw [predictFairPrice, resolveLabel_eq _ _ hcm, resolveLabel_eq _ _ hlm,
    hsc, hnet]
  rfl

/-- Helper: `List.mapM` over `Except` succeeds when every element does. -/
theorem mapM_ok_of_forall {α β : Type} (f : α → Except PError β) (g : α → β)
    (l : List α) (h : ∀ x ∈ l, f x = .ok (g x)) :
    l.mapM f = .ok (l.map g) := by
  induction l with
  | nil => rfl
  | cons a t ih =>
    rw [List.mapM_cons, h a (List.mem_cons_self a t),
      ih (fun x hx => h x (List.mem_cons_of_mem a hx))]
    rfl

/-- Helper: on a loaded state the effective `analyze_regional_pricing`
returns exactly the explicit report. -/
theorem analyzeRegionalPricing_eq (st : PState) (sc : Scaler)
    (net : Vec5 → ℚ) (category : String) (a c m : ℚ)
    (hsc : st.scaler = some sc) (hnet : st.model = some net)
    (hcm : st.category_mapping ≠ []) (hlm : st.location_mapping ≠ []) :
    analyzeRegionalPricing st category a c m =
      .ok (regionalReport st sc net category a c m) := by
  unfold analyzeRegionalPricing
  rw [if_neg (fun hh => hlm (List.isEmpty_iff.mp hh))]
  dsimp only
  rw [mapM_ok_of_forall
    (fun loc => (predictFairPrice st category loc a c m).map
      (fun p => RegionalPrice.mk loc p))
    (fun loc => ⟨loc, predOut st sc net category loc a c m⟩)
    (st.location_mapping.map Prod.fst)
    (fun loc _ => by
      dsimp only
      rw [predict_eq_predOut st sc net hsc hnet hcm hlm category loc a c m]
      rfl)]
  rfl

/-- Helper: the sort comparison of line 830 is transitive. -/
theorem rpLE_trans : ∀ x y z : RegionalPrice,
    rpLE x y = true → rpLE y z = true → rpLE x z = true := by
  intro x y z hxy hyz
  exact decide_eq_true
    (le_trans (of_decide_eq_true hxy) (of_decide_eq_true hyz))

/-- Helper: the sort comparison of line 830 is total. -/
theorem rpLE_total : ∀ x y : RegionalPrice,
    (rpLE x y || rpLE y x) = true := by
  intro x y
  rcases le_total x.price y.price with h | h <;> simp [rpLE, h]

/-- Helper: sorting with `rpLE` yields a list pairwise ordered by price. -/
theorem regionalPrices_sorted (l : List RegionalPrice) :
    (l.mergeSort rpLE).Pairwise (fun x y => x.price ≤ y.price) :=
  (List.sorted_mergeSort rpLE_trans rpLE_total l).imp
    (fun h => of_decide_eq_true h)

/-- C8: over `N` known locations, the effective `analyze_regional_pricing`
returns exactly `N` entries in `regional_prices`, sorted ascending by price
(lines 817-830, 853). -/
theorem regional_pricing_count_sorted (st : PState) (category : String)
    (a c m : ℚ) (sc : Scaler) (net : Vec5 → ℚ)
    (hsc : st.scaler = some sc) (hnet : st.model = some net)
    (hcm : st.category_mapping ≠ []) (hlm : st.location_mapping ≠ []) :
    ∃ r, analyzeRegionalPricing st category a c m = .ok r ∧
      r.regional_prices.length = st.location_mapping.length ∧
      r.regional_prices.Pairwise (fun x y => x.price ≤ y.price) := by
  refine ⟨regionalReport st sc net category a c m,
    analyzeRegionalPricing_eq st sc net category a c m hsc hnet hcm hlm,
    ?_, regionalPrices_sorted _⟩
  show ((regionalPrices st sc net category a c m).mergeSort rpLE).length = _
  rw [List.length_mergeSort]
  unfold regionalPrices
  rw [List.length_map, List.length_map]

/-- Witness for C8 on the two-location fixture. -/
theorem regional_pricing_count_sorted_witness :
    (stW.scaler = some scaler1 ∧ stW.model = some net7 ∧
     stW.category_mapping ≠ [] ∧ stW.location_mapping ≠ []) ∧
    (∃ r, analyzeRegionalPricing stW "Masonry" 50 5 5 = .ok r ∧
      r.regional_prices.length = stW.location_mapping.length ∧
      r.regional_prices.Pairwise (fun x y => x.price ≤ y.price)) :=
  ⟨⟨rfl, rfl, by decide, by decide⟩,
   regional_pricing_count_sorted stW "Masonry" 50 5 5 scaler1 net7 rfl rfl
     (by decide) (by decide)⟩

/-- C3 counterexample: the result dict of the effective
`analyze_regional_pricing` (the later definition, line 800, which shadows
the earlier one at line 491) carries no median, standard-deviation or
province keys (lines 841-854), so the claimed report contents do not hold on
the code. -/
theorem regional_report_missing_fields :
    ¬("median_price" ∈ analyzeRegionalPricingKeys ∧
      "standard_deviation" ∈ analyzeRegionalPricingKeys ∧
      "cheapest_province" ∈ analyzeRegionalPricingKeys ∧
      "most_expensive_province" ∈ analyzeRegionalPricingKeys ∧
      "provincial_averages" ∈ analyzeRegionalPricingKeys) := by
  decide

/-- Helper: in a price-sorted list every element is bounded by the last
one. -/
theorem price_le_getLast_of_sorted (l : List RegionalPrice)
    (rp1 : RegionalPrice)
    (hs : l.Pairwise (fun x y => x.price ≤ y.price))
    (hl : l.getLast? = some rp1) : ∀ q ∈ l, q.price ≤ rp1.price := by
  induction l with
  | nil => simp at hl
  | cons x t ih =>
    rcases t with _ | ⟨y, t2⟩
    · simp only [List.getLast?_singleton, Option.some.injEq] at hl
      subst hl
      intro q hq
      simp only [List.mem_singleton] at hq
      subst hq
      exact le_refl _
    · rw [List.getLast?_cons_cons] at hl
      obtain ⟨hx, hs2⟩ := List.pairwise_cons.mp hs
      intro q hq
      rcases List.mem_cons.mp hq with rfl | hq2
      · exact hx rp1 (List.mem_of_mem_getLast? hl)
      · exact ih hs2 hl q hq2

/-- C3 amended: for every category and query on a loaded estimator, the
effective `analyze_regional_pricing` reports, for the price computed at
every known location: mean bounded between min and max, price range equal
to max minus min, the max/min ratio when the minimum is positive, the
price list sorted ascending with every entry between min and max, and the
cheapest and most expensive locations taken from the ends of the sorted
list (lines 829-854).  No median, standard deviation or province grouping
is produced (see the counterexample). -/
theorem regional_pricing_report_stats (st : PState) (category : String)
    (a c m : ℚ) (sc : Scaler) (net : Vec5 → ℚ)
    (hsc : st.scaler = some sc) (hnet : st.model = some net)
    (hcm : st.category_mapping ≠ []) (hlm : st.location_mapping ≠ []) :
    ∃ r, analyzeRegionalPricing st category a c m = .ok r ∧
      r.min_price ≤ r.avg_price ∧ r.avg_price ≤ r.max_price ∧
      r.price_range = r.max_price - r.min_price ∧
      (0 < r.min_price → r.price_ratio = some (r.max_price / r.min_price)) ∧
      (∀ q ∈ r.regional_prices,
        r.min_price ≤ q.price ∧ q.price ≤ r.max_price) ∧
      (∃ rp0, r.regional_prices.head? = some rp0 ∧
        r.cheapest_location = rp0.location ∧
        ∀ q ∈ r.regional_prices, rp0.price ≤ q.price) ∧
      ∃ rp1, r.regional_prices.getLast? = some rp1 ∧
        r.most_expensive_location = rp1.location ∧
        ∀ q ∈ r.regional_prices, q.price ≤ rp1.price := by
  have hPne : regionalPrices st sc net category a c m ≠ [] := by
    unfold regionalPrices
    simp only [ne_eq, List.map_eq_nil]
    exact hlm
  have hVne : (regionalPrices st sc net category a c m).map (·.price) ≠ [] := by
    simp only [ne_eq, List.map_eq_nil]
    exact hPne
  have hSlen : ((regionalPrices st sc net category a c m).mergeSort
      rpLE).length = (regionalPrices st sc net category a c m).length :=
    List.length_mergeSort _
  have hSne : (regionalPrices st sc net category a c m).mergeSort rpLE ≠ [] := by
    rw [← List.length_pos, hSlen, List.length_pos]
    exact hPne
  have hsorted := regionalPrices_sorted
    (regionalPrices st sc net category a c m)
  have hperm := List.mergeSort_perm
    (regionalPrices st sc net category a c m) rpLE
  obtain ⟨mn, hmn⟩ : ∃ mn, ((regionalPrices st sc net category a c
      m).map (·.price)).min? = some mn := by
    cases hc : ((regionalPrices st sc net category a c m).map
        (·.price)).min? with
    | none => exact absurd (List.min?_eq_none_iff.mp hc) hVne
    | some mn => exact ⟨mn, rfl⟩
  obtain ⟨hmnmem, hmnle⟩ := (List.min?_eq_some_iff (fun _ => le_refl _)
    (fun x y => min_choice x y) (fun _ _ _ => le_min_iff)).mp hmn
  obtain ⟨mx, hmx⟩ : ∃ mx, ((regionalPrices st sc net category a c
      m).map (·.price)).max? = some mx := by
    cases hc : ((regionalPrices st sc net category a c m).map
        (·.price)).max? with
    | none => exact absurd (List.max?_eq_none_iff.mp hc) hVne
    | some mx => exact ⟨mx, rfl⟩
  obtain ⟨hmxmem, hmxle⟩ := (List.max?_eq_some_iff (fun _ => le_refl _)
    (fun x y => max_choice x y) (fun _ _ _ => max_le_iff)).mp hmx
  have hlenpos : 0 < ((((regionalPrices st sc net category a c m).map
      (·.price)).length : ℚ)) := by
    have h0 : 0 < ((regionalPrices st sc net category a c m).map
        (·.price)).length := List.length_pos.mpr hVne
    exact_mod_cast h0
  have hsumlo := List.card_nsmul_le_sum
    ((regionalPrices st sc net category a c m).map (·.price)) mn hmnle
  have hsumhi := List.sum_le_card_nsmul
    ((regionalPrices st sc net category a c m).map (·.price)) mx hmxle
  rw [nsmul_eq_mul] at hsumlo hsumhi
  refine ⟨regionalReport st sc net category a c m,
    analyzeRegionalPricing_eq st sc net category a c m hsc hnet hcm hlm,
    ?_, ?_, ?_, ?_, ?_, ?_, ?_⟩
  · show (((regionalPrices st sc net category a c m).map
        (·.price)).min?).getD 0 ≤
      ((regionalPrices st sc net category a c m).map (·.price)).sum /
        ((((regionalPrices st sc net category a c m).map
          (·.price)).length : ℚ))
    rw [hmn, Option.getD_some, le_div_iff₀ hlenpos, mul_comm]
    exact hsumlo
  · show ((regionalPrices st sc net category a c m).map (·.price)).sum /
        ((((regionalPrices st sc net category a c m).map
          (·.price)).length : ℚ)) ≤
      (((regionalPrices st sc net category a c m).map (·.price)).max?).getD 0
    rw [hmx, Option.getD_some, div_le_iff₀ hlenpos, mul_comm]
    exact hsumhi
  · rfl
  · intro h
    have h2 : (((regionalPrices st sc net category a c m).map
        (·.price)).min?).getD 0 > 0 := h
    show (if (((regionalPrices st sc net category a c m).map
          (·.price)).min?).getD 0 > 0 then
        some ((((regionalPrices st sc net category a c m).map
          (·.price)).max?).getD 0 /
          (((regionalPrices st sc net category a c m).map
            (·.price)).min?).getD 0)
      else none) = _
    rw [if_pos h2]
    rfl
  · intro q hq
    have hqP : q ∈ regionalPrices st sc net category a c m :=
      hperm.mem_iff.mp hq
    have hqV : q.price ∈ (regionalPrices st sc net category a c m).map
        (·.price) := List.mem_map_of_mem _ hqP
    constructor
    · show (((regionalPrices st sc net category a c m).map
          (·.price)).min?).getD 0 ≤ q.price
      rw [hmn, Option.getD_some]
      exact hmnle _ hqV
    · show q.price ≤ (((regionalPrices st sc net category a c m).map
          (·.price)).max?).getD 0
      rw [hmx, Option.getD_some]
      exact hmxle _ hqV
  · obtain ⟨rp0, hrp0⟩ : ∃ rp0, ((regionalPrices st sc net category a c
        m).mergeSort rpLE).head? = some rp0 := by
      cases hc : ((regionalPrices st sc net category a c
          m).mergeSort rpLE).head? with
      | none => exact absurd (List.head?_eq_none_iff.mp hc) hSne
      | some rp0 => exact ⟨rp0, rfl⟩
    refine ⟨rp0, hrp0, ?_, ?_⟩
    · show ((((regionalPrices st sc net category a c m).mergeSort
          rpLE).head?).map (·.location)).getD "" = rp0.location
      rw [hrp0]
      rfl
    · obtain ⟨t, ht⟩ := List.head?_eq_some_iff.mp hrp0
      intro q hq
      have hq1 : q ∈ (regionalPrices st sc net category a c m).mergeSort
        rpLE := hq
      rw [ht] at hq1
      rcases List.mem_cons.mp hq1 with rfl | hq2
      · exact le_refl _
      · have hs2 := hsorted
        rw [ht] at hs2
        exact (List.pairwise_cons.mp hs2).1 q hq2
  · obtain ⟨rp1, hrp1⟩ : ∃ rp1, ((regionalPrices st sc net category a c
        m).mergeSort rpLE).getLast? = some rp1 := by
      cases hc : ((regionalPrices st sc net category a c
          m).mergeSort rpLE).getLast? with
      | none => exact absurd (List.getLast?_eq_none_iff.mp hc) hSne
      | some rp1 => exact ⟨rp1, rfl⟩
    refine ⟨rp1, hrp1, ?_, ?_⟩
    · show ((((regionalPrices st sc net category a c m).mergeSort
          rpLE).getLast?).map (·.location)).getD "" = rp1.location
      rw [hrp1]
      rfl
    · exact price_le_getLast_of_sorted _ rp1 hsorted hrp1

/-- Witness for the amended C3 on the two-location fixture. -/
theorem regional_pricing_report_stats_witness :
    (stW.scaler = some scaler1 ∧ stW.model = some net7 ∧
     stW.category_mapping ≠ [] ∧ stW.location_mapping ≠ []) ∧
    (∃ r, analyzeRegionalPricing stW "Masonry" 50 5 5 = .ok r ∧
      r.min_price ≤ r.avg_price ∧ r.avg_price ≤ r.max_price ∧
      r.price_range = r.max_price - r.min_price ∧
      (0 < r.min_price → r.price_ratio = some (r.max_price / r.min_price)) ∧
      (∀ q ∈ r.regional_prices,
        r.min_price ≤ q.price ∧ q.price ≤ r.max_price) ∧
      (∃ rp0, r.regional_prices.head? = some rp0 ∧
        r.cheapest_location = rp0.location ∧
        ∀ q ∈ r.regional_prices, rp0.price ≤ q.price) ∧
      ∃ rp1, r.regional_prices.getLast? = some rp1 ∧
        r.most_expensive_location = rp1.location ∧
        ∀ q ∈ r.regional_prices, q.price ≤ rp1.price) :=
  ⟨⟨rfl, rfl, by decide, by decide⟩,
   regional_pricing_report_stats stW "Masonry" 50 5 5 scaler1 net7 rfl rfl
     (by decide) (by decide)⟩

end PriceAnalyzer
